import Mathlib

/-!
Verification of the Gmail ReAct agent repository: a shallow embedding of
the pagination logic of `app.py`, the IMAP helpers of `gmail_service.py`
and the Gmail-API helpers of `oauth_service.py`, together with theorems
settling the specification claims.

Text values are modelled as `List Char` (Python `str` as a sequence of
characters); Python integers are `Int`, with `Nat` where the source value
is provably non-negative.
-/

/-- Normalisation of one Python slice index for a sequence of length `n`:
a negative index counts from the end and is clamped at 0, a non-negative
index is clamped at `n`. -/
def pySliceIdx (n : Nat) (i : Int) : Nat :=
  if i < 0 then (i + n).toNat else min i.toNat n

/-- Python slice `xs[a:b]` (step 1). -/
def pySlice (xs : List α) (a b : Int) : List α :=
  (xs.drop (pySliceIdx xs.length a)).take (pySliceIdx xs.length b - pySliceIdx xs.length a)

/-- Python slice `xs[a:]` (step 1). -/
def pySliceFrom (xs : List α) (a : Int) : List α :=
  xs.drop (pySliceIdx xs.length a)

/-! ## `app.py`, `inbox_page`: pagination of the fetched batch

Mirrors lines 654-668 of `app.py`:
```
total_emails = len(all_emails)
per_page = st.session_state.emails_per_page
total_pages = (total_emails + per_page - 1) // per_page
current_page = st.session_state.email_page
if current_page > total_pages:
    current_page = total_pages
start_idx = (current_page - 1) * per_page
end_idx = min(start_idx + per_page, total_emails)
emails = all_emails[start_idx:end_idx]
```
-/

def inbox_paginate (all_emails : List α) (email_page : Nat) (per_page : Nat) : List α :=
  let total_emails := all_emails.length
  let total_pages := (total_emails + per_page - 1) / per_page
  let current_page := if email_page > total_pages then total_pages else email_page
  let start_idx : Int := ((current_page : Int) - 1) * per_page
  let end_idx : Int := min (start_idx + per_page) (total_emails : Int)
  pySlice all_emails start_idx end_idx

/-- The `total_pages` value computed by `inbox_page`. -/
def inbox_total_pages (n per_page : Nat) : Nat :=
  (n + per_page - 1) / per_page

/-! ## `gmail_service.py` -/

/-- Final line of `get_email_body`:
`return body[:500] + "..." if len(body) > 500 else body`. -/
def truncate_body (body : List Char) : List Char :=
  if body.length > 500 then body.take 500 ++ "...".toList else body

/-- Python substring test `needle in hay`. -/
def py_in (needle hay : List Char) : Bool :=
  decide (needle <:+: hay)

/-- Outcome of the IMAP connect-and-login attempt in `authenticate`
(lines 34-41 of `gmail_service.py`): success, an `imaplib.IMAP4.error`
with a given message, or any other exception with a given message. -/
inductive AuthOutcome where
  | success : AuthOutcome
  | imapError (msg : List Char) : AuthOutcome
  | connError (msg : List Char) : AuthOutcome

/-- The bad-credentials guidance message of `authenticate`. -/
def app_password_guidance : List Char :=
  "Authentication failed: Please use an App Password, not your regular Gmail password. See instructions below.".toList

/-- The bad-credentials test of `authenticate`, line 45:
`"AUTHENTICATIONFAILED" in error_msg.upper() or "Invalid credentials" in error_msg`. -/
def is_auth_failed (error_msg : List Char) : Bool :=
  py_in "AUTHENTICATIONFAILED".toList (error_msg.map Char.toUpper) ||
    py_in "Invalid credentials".toList error_msg

/-- `authenticate` (lines 34-50 of `gmail_service.py`), as a function of the
outcome of the connection attempt. -/
def authenticate (o : AuthOutcome) : Bool × List Char :=
  match o with
  | .success => (true, "Authentication successful!".toList)
  | .imapError msg =>
      if is_auth_failed msg then (false, app_password_guidance)
      else (false, "Authentication failed: ".toList ++ msg)
  | .connError msg => (false, "Connection error: ".toList ++ msg)

/-- Selection of ids in `fetch_emails` (lines 124-128 of `gmail_service.py`):
```
email_ids = email_ids[-count:] if len(email_ids) > count else email_ids
email_ids = email_ids[::-1]
```
-/
def select_ids (email_ids : List α) (count : Nat) : List α :=
  let sel := if email_ids.length > count then pySliceFrom email_ids (-(count : Int))
             else email_ids
  sel.reverse

/-- A raw fetched message as `fetch_emails` reads it: each header is
present or absent (`msg.get`), the extracted body text. -/
structure ImapRawMsg where
  subject : Option (List Char)
  from_addr : Option (List Char)
  date_hdr : Option (List Char)
  body : List Char

/-- A record of the batch returned by either fetch operation. -/
structure EmailRecord where
  id : List Char
  subject : List Char
  from_addr : List Char
  date : List Char
  body : List Char
  deriving DecidableEq

/-- Per-message record construction in `fetch_emails` (lines 143-161 of
`gmail_service.py`), parameterised by the external MIME-header decoder
(`decode_mime_header`) and the external date parser+formatter
(`email.utils.parsedate_to_datetime` followed by `strftime`, `none` when
the `try` block raises):
```
subject = decode_mime_header(msg.get("Subject", "No Subject"))
from_addr = decode_mime_header(msg.get("From", "Unknown"))
date_str = msg.get("Date", "")
body = get_email_body(msg)
try:
    ...date_formatted = strftime(parsedate_to_datetime(date_str))
except:
    date_formatted = date_str[:20] if date_str else "Unknown"
```
-/
def build_imap_record (decode : List Char → List Char)
    (parse_date : List Char → Option (List Char))
    (email_id : List Char) (m : ImapRawMsg) : EmailRecord :=
  let date_str := m.date_hdr.getD []
  let date_formatted :=
    match parse_date date_str with
    | some d => d
    | none => if date_str.isEmpty then "Unknown".toList else date_str.take 20
  { id := email_id
    subject := decode (m.subject.getD "No Subject".toList)
    from_addr := decode (m.from_addr.getD "Unknown".toList)
    date := date_formatted
    body := truncate_body m.body }

/-- The per-message loop of `fetch_emails` over the selected ids and their
fetched raw messages. -/
def fetch_emails_records (decode : List Char → List Char)
    (parse_date : List Char → Option (List Char))
    (msgs : List (List Char × ImapRawMsg)) : List EmailRecord :=
  msgs.map (fun p => build_imap_record decode parse_date p.1 p.2)

/-! ## `app.py`, `compose_page`: send-form validation (lines 800-825) -/

/-- Outcome of submitting the compose form: one of the three validation
errors, or a dispatch to one of the two transports. -/
inductive ComposeOutcome where
  | errorRecipient : ComposeOutcome
  | errorSubject : ComposeOutcome
  | errorBody : ComposeOutcome
  | dispatchOauth : ComposeOutcome
  | dispatchSmtp : ComposeOutcome
  deriving DecidableEq

/-- `compose_page` submit handling:
```
if not to_email: error
elif not subject: error
elif not body: error
else: send via OAuth transport or SMTP transport
```
-/
def compose_submit (use_oauth : Bool) (to_email subject body : List Char) :
    ComposeOutcome :=
  if to_email.isEmpty then .errorRecipient
  else if subject.isEmpty then .errorSubject
  else if body.isEmpty then .errorBody
  else if use_oauth then .dispatchOauth else .dispatchSmtp

/-! ## `oauth_service.py` -/

/-- One header of a Gmail API message payload (`{'name': ..., 'value': ...}`). -/
structure GmailHeader where
  name : List Char
  value : List Char

/-- A Gmail API message as `fetch_emails_oauth` reads it: its id, its
payload headers, its snippet. -/
structure GmailApiMsg where
  id : List Char
  headers : List GmailHeader
  snippet : List Char

/-- `next((h['value'] for h in headers if h['name'].lower() == key), default)`
without the default: the first header whose lower-cased name equals `key`. -/
def find_header (headers : List GmailHeader) (key : List Char) :
    Option (List Char) :=
  (headers.find? (fun h => h.name.map Char.toLower == key)).map (fun h => h.value)

/-- Per-message record construction in `fetch_emails_oauth` (lines 174-197
of `oauth_service.py`):
```
subject = next((h['value'] for h in headers if h['name'].lower() == 'subject'), 'No Subject')
from_addr = next((h['value'] for h in headers if h['name'].lower() == 'from'), 'Unknown')
date_str = next((h['value'] for h in headers if h['name'].lower() == 'date'), 'Unknown')
snippet = message.get('snippet', '')
date_formatted = date_str[:25] if len(date_str) > 25 else date_str
body = snippet[:500] + '...' if len(snippet) > 500 else snippet
```
-/
def build_oauth_record (m : GmailApiMsg) : EmailRecord :=
  let subject := (find_header m.headers "subject".toList).getD "No Subject".toList
  let from_addr := (find_header m.headers "from".toList).getD "Unknown".toList
  let date_str := (find_header m.headers "date".toList).getD "Unknown".toList
  let date_formatted := if date_str.length > 25 then date_str.take 25 else date_str
  { id := m.id
    subject := subject
    from_addr := from_addr
    date := date_formatted
    body := if m.snippet.length > 500 then m.snippet.take 500 ++ "...".toList
            else m.snippet }

/-- A delegated (OAuth) credential, with the fields that
`credentials_to_dict` serialises. The claimed data model carries a scopes
sequence (possibly empty), never absent. -/
structure OAuthCredentials where
  token : Option String
  refresh_token : Option String
  token_uri : String
  client_id : Option String
  client_secret : Option String
  scopes : List String
  deriving DecidableEq

/-- The dictionary shape produced by `credentials_to_dict`: all six keys
are always present. -/
structure CredsDict where
  token : Option String
  refresh_token : Option String
  token_uri : String
  client_id : Option String
  client_secret : Option String
  scopes : List String
  deriving DecidableEq

/-- `credentials_to_dict` (lines 254-263 of `oauth_service.py`); the scopes
entry is `list(credentials.scopes) if credentials.scopes else []`. -/
def credentials_to_dict (c : OAuthCredentials) : CredsDict :=
  { token := c.token
    refresh_token := c.refresh_token
    token_uri := c.token_uri
    client_id := c.client_id
    client_secret := c.client_secret
    scopes := if c.scopes.isEmpty then [] else c.scopes }

/-- `credentials_from_dict` (lines 266-275 of `oauth_service.py`); the
`.get` defaults never fire on a dictionary produced by
`credentials_to_dict`, which always stores every key. -/
def credentials_from_dict (d : CredsDict) : OAuthCredentials :=
  { token := d.token
    refresh_token := d.refresh_token
    token_uri := d.token_uri
    client_id := d.client_id
    client_secret := d.client_secret
    scopes := d.scopes }

/-! ## Helper lemmas for the pagination proofs -/

theorem div_succ_chunk (ps n : Nat) (hps : 0 < ps) (hn : 0 < n) :
    (n + ps - 1) / ps = ((n - ps) + ps - 1) / ps + 1 := by
  have h1 : n + ps - 1 = (n - 1) + ps := by omega
  rw [h1, Nat.add_div_right _ hps]
  rcases le_or_lt ps n with h | h
  · have h2 : (n - ps) + ps - 1 = n - 1 := by omega
    rw [h2]
  · have h2 : n - ps = 0 := by omega
    rw [h2]
    rw [Nat.div_eq_of_lt (by omega : n - 1 < ps),
        Nat.div_eq_of_lt (by omega : 0 + ps - 1 < ps)]

theorem join_chunks {α : Type _} (ps : Nat) (hps : 0 < ps) :
    ∀ (fuel : Nat) (xs : List α), xs.length ≤ fuel →
      ((List.range ((xs.length + ps - 1) / ps)).map
        (fun i => (xs.drop (i * ps)).take ps)).flatten = xs := by
  intro fuel
  induction fuel with
  | zero =>
    intro xs h
    have hx : xs = [] := List.eq_nil_of_length_eq_zero (Nat.le_zero.mp h)
    subst hx
    have h0 : (([] : List α).length + ps - 1) / ps = 0 := by
      simp only [List.length_nil, Nat.zero_add]
      exact Nat.div_eq_of_lt (by omega)
    rw [h0]
    rfl
  | succ fuel ih =>
    intro xs h
    rcases Nat.eq_zero_or_pos xs.length with h0 | hpos
    · have hx : xs = [] := List.eq_nil_of_length_eq_zero h0
      subst hx
      have h0 : (([] : List α).length + ps - 1) / ps = 0 := by
        simp only [List.length_nil, Nat.zero_add]
        exact Nat.div_eq_of_lt (by omega)
      rw [h0]
      rfl
    · rw [div_succ_chunk ps xs.length hps hpos, List.range_succ_eq_map,
          List.map_cons, List.flatten_cons, List.map_map]
      have hcomp : ((fun i => (xs.drop (i * ps)).take ps) ∘ Nat.succ)
          = fun i => ((xs.drop ps).drop (i * ps)).take ps := by
        funext i
        simp only [Function.comp]
        rw [List.drop_drop]
        have hsucc : Nat.succ i * ps = ps + i * ps := by
          rw [Nat.succ_mul]
          omega
        rw [hsucc]
      rw [hcomp]
      have hlen : (xs.drop ps).length = xs.length - ps := by simp
      rw [← hlen]
      rw [ih (xs.drop ps) (by omega)]
      simp only [Nat.zero_mul, List.drop_zero]
      exact List.take_append_drop ps xs

theorem pySlice_natCast {α : Type _} (xs : List α) (a b : Nat) :
    pySlice xs (a : Int) (b : Int)
      = (xs.drop (min a xs.length)).take (min b xs.length - min a xs.length) := by
  unfold pySlice pySliceIdx
  rw [if_neg (by omega : ¬ (a : Int) < 0), if_neg (by omega : ¬ (b : Int) < 0)]
  rw [Int.toNat_ofNat, Int.toNat_ofNat]

theorem page_start_lt {n ps p : Nat} (hps : 0 < ps) (hp1 : 1 ≤ p)
    (hptp : p ≤ inbox_total_pages n ps) : (p - 1) * ps < n := by
  have hptp' : p ≤ (n + ps - 1) / ps := hptp
  have h1 : 1 ≤ (n + ps - 1) / ps := le_trans hp1 hptp'
  have h2 : 1 * ps ≤ n + ps - 1 := (Nat.le_div_iff_mul_le hps).mp h1
  have hA : p * ps ≤ n + ps - 1 := (Nat.le_div_iff_mul_le hps).mp hptp'
  have hmul : ps ≤ p * ps := by
    calc ps = 1 * ps := (one_mul ps).symm
    _ ≤ p * ps := Nat.mul_le_mul_right ps hp1
  have hsub : (p - 1) * ps = p * ps - ps := by rw [Nat.sub_mul, one_mul]
  omega

theorem inbox_paginate_eq_take_drop {α : Type _} (batch : List α) (ps p : Nat)
    (hps : 0 < ps) (hp1 : 1 ≤ p)
    (hptp : p ≤ inbox_total_pages batch.length ps) :
    inbox_paginate batch p ps = (batch.drop ((p - 1) * ps)).take ps := by
  have hptp' : p ≤ (batch.length + ps - 1) / ps := hptp
  have hn : 1 ≤ batch.length := by
    have h1 : 1 ≤ (batch.length + ps - 1) / ps := le_trans hp1 hptp'
    have h2 : 1 * ps ≤ batch.length + ps - 1 := (Nat.le_div_iff_mul_le hps).mp h1
    omega
  have hlt : (p - 1) * ps < batch.length := page_start_lt hps hp1 hptp
  simp only [inbox_paginate]
  rw [if_neg (by omega : ¬ p > (batch.length + ps - 1) / ps)]
  have hcast1 : ((p : Int) - 1) * (ps : Int) = (((p - 1) * ps : Nat) : Int) := by
    rw [Nat.cast_mul]
    have : ((p - 1 : Nat) : Int) = (p : Int) - 1 := by omega
    rw [this]
  rw [hcast1]
  have hcast2 : min ((((p - 1) * ps : Nat) : Int) + (ps : Int)) ((batch.length : Nat) : Int)
      = ((min ((p - 1) * ps + ps) batch.length : Nat) : Int) := by
    push_cast
    rfl
  rw [hcast2, pySlice_natCast]
  have hminA : min ((p - 1) * ps) batch.length = (p - 1) * ps := by omega
  have hminB : min (min ((p - 1) * ps + ps) batch.length) batch.length
      = min ((p - 1) * ps + ps) batch.length := by omega
  rw [hminA, hminB]
  have hlen2 : (batch.drop ((p - 1) * ps)).length = batch.length - (p - 1) * ps := by
    simp
  have hmin3 : min ((p - 1) * ps + ps) batch.length - (p - 1) * ps
      = min ps (batch.length - (p - 1) * ps) := by omega
  rw [hmin3, ← List.take_take, ← hlen2, List.take_length]

/-! ## Claims -/

/-- C1: for every fetched batch of `n ≥ 0` messages and every
`pageSize ∈ {10, 25, 50, 100}`, `inbox_page` computes
`totalPages = ⌈n / pageSize⌉`, each page `p` with `1 ≤ p ≤ totalPages` is
the contiguous slice `[(p-1)·pageSize, min(p·pageSize, n))` of the batch,
and concatenating all pages in page order yields the original batch. -/
theorem c1_pagination_correct {α : Type} (batch : List α) (ps : Nat)
    (hps : ps = 10 ∨ ps = 25 ∨ ps = 50 ∨ ps = 100) :
    inbox_total_pages batch.length ps = batch.length ⌈/⌉ ps ∧
    (∀ p, 1 ≤ p → p ≤ inbox_total_pages batch.length ps →
      inbox_paginate batch p ps
        = (batch.drop ((p - 1) * ps)).take (min (p * ps) batch.length - (p - 1) * ps)) ∧
    ((List.range (inbox_total_pages batch.length ps)).map
        (fun i => inbox_paginate batch (i + 1) ps)).flatten = batch := by
  have hps' : 0 < ps := by rcases hps with h | h | h | h <;> omega
  refine ⟨(Nat.ceilDiv_eq_add_pred_div batch.length ps).symm, ?_, ?_⟩
  · intro p hp1 hptp
    rw [inbox_paginate_eq_take_drop batch ps p hps' hp1 hptp]
    have hlt : (p - 1) * ps < batch.length := page_start_lt hps' hp1 hptp
    have hsub : (p - 1) * ps = p * ps - ps := by rw [Nat.sub_mul, one_mul]
    have hmul : ps ≤ p * ps := by
      calc ps = 1 * ps := (one_mul ps).symm
      _ ≤ p * ps := Nat.mul_le_mul_right ps hp1
    have hk : min (p * ps) batch.length - (p - 1) * ps
        = min ps (batch.length - (p - 1) * ps) := by omega
    rw [hk]
    have hlen2 : (batch.drop ((p - 1) * ps)).length
        = batch.length - (p - 1) * ps := by simp
    rw [← List.take_take, ← hlen2, List.take_length]
  · have hmap : ∀ i ∈ List.range (inbox_total_pages batch.length ps),
        inbox_paginate batch (i + 1) ps = (batch.drop (i * ps)).take ps := by
      intro i hi
      rw [inbox_paginate_eq_take_drop batch ps (i + 1) hps' (by omega)
          (Nat.succ_le_of_lt (List.mem_range.mp hi))]
      simp
    rw [List.map_congr_left hmap]
    exact join_chunks ps hps' batch.length batch (le_refl _)

/-- Witness for C1 at a 12-message batch and pageSize 10. -/
theorem c1_pagination_correct_witness :
    inbox_paginate (List.range 12) 2 10 = [10, 11] ∧
    ((List.range (inbox_total_pages (List.range 12).length 10)).map
        (fun i => inbox_paginate (List.range 12) (i + 1) 10)).flatten
      = List.range 12 := by
  have h := c1_pagination_correct (List.range 12) 10 (Or.inl rfl)
  refine ⟨?_, h.2.2⟩
  have h2 := h.2.1 2 (by omega) (by decide)
  rw [h2]
  decide

/-- C2 counterexample: on the non-empty batch `[1, 2, 3]` with pageSize 10,
requesting page 0 yields the empty page, not the first page `[1, 2, 3]`:
the code clamps the page number from above only. -/
theorem c2_counterexample :
    inbox_paginate [(1 : Nat), 2, 3] 0 10 = [] ∧
    inbox_paginate [(1 : Nat), 2, 3] 1 10 = [1, 2, 3] := by decide

/-- C2 (amended): for every non-empty batch and valid pageSize, requesting
`pageNumber > totalPages` yields the last valid page, and every page
`1 ≤ p ≤ totalPages` is non-empty; but `pageNumber = 0` is not clamped and
yields the empty page. -/
theorem c2_page_clamp {α : Type} (batch : List α) (ps : Nat)
    (hps : ps = 10 ∨ ps = 25 ∨ ps = 50 ∨ ps = 100) (hn : 0 < batch.length) :
    (∀ p, p > inbox_total_pages batch.length ps →
        inbox_paginate batch p ps
          = inbox_paginate batch (inbox_total_pages batch.length ps) ps) ∧
    (∀ p, 1 ≤ p → p ≤ inbox_total_pages batch.length ps →
        inbox_paginate batch p ps ≠ []) ∧
    inbox_paginate batch 0 ps = [] := by
  have hps' : 0 < ps := by rcases hps with h | h | h | h <;> omega
  refine ⟨?_, ?_, ?_⟩
  · intro p hp
    simp only [inbox_total_pages] at hp
    simp only [inbox_paginate, inbox_total_pages]
    rw [if_pos (by omega : p > (batch.length + ps - 1) / ps),
        if_neg (by omega :
          ¬ (batch.length + ps - 1) / ps > (batch.length + ps - 1) / ps)]
  · intro p hp1 hptp
    rw [inbox_paginate_eq_take_drop batch ps p hps' hp1 hptp]
    have hlt : (p - 1) * ps < batch.length := page_start_lt hps' hp1 hptp
    have hlen : ((batch.drop ((p - 1) * ps)).take ps).length
        = min ps (batch.length - (p - 1) * ps) := by simp
    have hpos : 0 < ((batch.drop ((p - 1) * ps)).take ps).length := by
      rw [hlen]
      omega
    exact List.length_pos.mp hpos
  · simp only [inbox_paginate]
    rw [if_neg (Nat.not_lt_zero ((batch.length + ps - 1) / ps))]
    have ha : (((0 : Nat) : Int) - 1) * (ps : Int) = -(ps : Int) := by
      push_cast
      ring
    rw [ha]
    have hb : min (-(ps : Int) + (ps : Int)) ((batch.length : Nat) : Int)
        = (0 : Int) := by
      have h0 : -(ps : Int) + (ps : Int) = 0 := by ring
      rw [h0]
      omega
    rw [hb]
    unfold pySlice pySliceIdx
    rw [if_pos (by omega : -(ps : Int) < 0), if_neg (by omega : ¬ (0 : Int) < 0)]
    simp

/-- Witness for the amended C2 at the batch `[1, 2, 3]` and pageSize 10. -/
theorem c2_page_clamp_witness :
    inbox_paginate [(1 : Nat), 2, 3] 5 10 = inbox_paginate [(1 : Nat), 2, 3] 1 10 ∧
    inbox_paginate [(1 : Nat), 2, 3] 1 10 ≠ [] ∧
    inbox_paginate [(1 : Nat), 2, 3] 0 10 = [] := by
  have h := c2_page_clamp [(1 : Nat), 2, 3] 10 (Or.inl rfl) (by decide)
  exact ⟨h.1 5 (by decide), h.2.1 1 (by decide) (by decide), h.2.2⟩

/-- C3: truncating a body of at most 500 characters is a no-op; truncating
a longer body yields exactly its first 500 characters followed by the
ellipsis marker; the truncation is idempotent; every produced body has
length at most 503. -/
theorem c3_truncate_body (s : List Char) :
    (s.length ≤ 500 → truncate_body s = s) ∧
    (500 < s.length → truncate_body s = s.take 500 ++ "...".toList) ∧
    truncate_body (truncate_body s) = truncate_body s ∧
    (truncate_body s).length ≤ 503 := by
  by_cases h : 500 < s.length
  · have ht : truncate_body s = s.take 500 ++ "...".toList := by
      simp [truncate_body, h]
    have h500 : (s.take 500).length = 500 := by
      rw [List.length_take]
      omega
    have hlen : (truncate_body s).length = 503 := by
      rw [ht, List.length_append, h500]
      rfl
    refine ⟨fun hc => absurd hc (by omega), fun _ => ht, ?_, by omega⟩
    rw [ht]
    have hlen2 : (s.take 500 ++ "...".toList).length = 503 := by
      rw [List.length_append, h500]
      rfl
    unfold truncate_body
    rw [if_pos (by rw [hlen2]; omega : (s.take 500 ++ "...".toList).length > 500)]
    rw [List.take_left' h500]
  · have ht : truncate_body s = s := by
      simp [truncate_body, h]
    refine ⟨fun _ => ht, fun hc => absurd hc h, ?_, ?_⟩
    · rw [ht]
      exact ht
    · rw [ht]
      omega

/-- Witness for C3 at a short body and at a 501-character body. -/
theorem c3_truncate_body_witness :
    truncate_body "hi".toList = "hi".toList ∧
    truncate_body (List.replicate 501 'a')
      = (List.replicate 501 'a').take 500 ++ "...".toList :=
  ⟨(c3_truncate_body "hi".toList).1 (by decide),
   (c3_truncate_body (List.replicate 501 'a')).2.1
     (by rw [List.length_replicate]; omega)⟩

/-- C4: deserialising the serialised form of a delegated credential
reproduces it field-for-field, and the empty scopes sequence is serialised
as the empty sequence. -/
theorem c4_credentials_roundtrip (c : OAuthCredentials) :
    credentials_from_dict (credentials_to_dict c) = c ∧
    (c.scopes = [] → (credentials_to_dict c).scopes = []) := by
  constructor
  · cases c with
    | mk token refresh uri cid csec scopes =>
      by_cases h : scopes.isEmpty
      · have h' : scopes = [] := List.isEmpty_iff.mp h
        subst h'
        simp [credentials_from_dict, credentials_to_dict]
      · simp [credentials_from_dict, credentials_to_dict, h]
  · intro h
    simp [credentials_to_dict, h]

/-- Witness for C4 at a credential with no refresh token and empty scopes. -/
theorem c4_credentials_roundtrip_witness :
    credentials_from_dict (credentials_to_dict
        ⟨some "tok", none, "https://oauth2.googleapis.com/token",
          some "cid", some "sec", []⟩)
      = ⟨some "tok", none, "https://oauth2.googleapis.com/token",
          some "cid", some "sec", []⟩ ∧
    (credentials_to_dict
        ⟨some "tok", none, "https://oauth2.googleapis.com/token",
          some "cid", some "sec", []⟩).scopes = [] :=
  ⟨(c4_credentials_roundtrip _).1, (c4_credentials_roundtrip _).2 rfl⟩

/-- C5: submitting the compose form with an empty recipient is rejected by
the recipient validation before any transport dispatch: the outcome is the
recipient error, never a dispatch to either transport. -/
theorem c5_empty_recipient_rejected (use_oauth : Bool) (subject body : List Char) :
    compose_submit use_oauth [] subject body = ComposeOutcome.errorRecipient ∧
    compose_submit use_oauth [] subject body ≠ ComposeOutcome.dispatchOauth ∧
    compose_submit use_oauth [] subject body ≠ ComposeOutcome.dispatchSmtp := by
  refine ⟨rfl, ?_, ?_⟩ <;> intro h <;> simp [compose_submit] at h

/-- C6: an IMAP login error whose message matches the bad-credentials test
yields the fixed App-Password guidance message (which contains the phrase
"App Password"); any other IMAP error yields the generic
`Authentication failed:` message, and any other exception yields the
generic `Connection error:` message. -/
theorem c6_auth_error_classification (msg : List Char) :
    (is_auth_failed msg = true →
      authenticate (.imapError msg) = (false, app_password_guidance) ∧
      py_in "App Password".toList app_password_guidance = true) ∧
    (is_auth_failed msg = false →
      authenticate (.imapError msg)
        = (false, "Authentication failed: ".toList ++ msg)) ∧
    authenticate (.connError msg) = (false, "Connection error: ".toList ++ msg) := by
  refine ⟨fun h => ⟨by simp [authenticate, h], by decide⟩,
    fun h => by simp [authenticate, h], rfl⟩

/-- Witness for C6 at a provider-rejection message and a timeout message. -/
theorem c6_auth_error_classification_witness :
    authenticate
        (.imapError "[AUTHENTICATIONFAILED] Invalid credentials (Failure)".toList)
      = (false, app_password_guidance) ∧
    authenticate (.imapError "Connection timed out".toList)
      = (false, "Authentication failed: ".toList ++ "Connection timed out".toList) :=
  ⟨((c6_auth_error_classification _).1 (by decide)).1,
   (c6_auth_error_classification _).2.1 (by decide)⟩

/-- C7 counterexample: with three identifiers and requested count 0, the
selection returns the whole reversed mailbox, of length 3, not the last
`min(0, 3) = 0` identifiers: `ids[-0:]` is the whole list in Python. -/
theorem c7_counterexample :
    select_ids [(1 : Nat), 2, 3] 0 = [3, 2, 1] ∧
    (select_ids [(1 : Nat), 2, 3] 0).length ≠ min 0 3 := by decide

/-- C7 (amended): for every identifier list (oldest-first) and every
requested count `≥ 1`, the selection is the last `count` identifiers (all
of them if fewer exist) reversed to newest-first, and its length is
`min(count, total)`; count 0 is excluded (it returns the whole mailbox). -/
theorem c7_select_recent {α : Type} (ids : List α) (count : Nat)
    (hc : 1 ≤ count) :
    select_ids ids count = (ids.drop (ids.length - count)).reverse ∧
    (select_ids ids count).length = min count ids.length := by
  have hmain : select_ids ids count = (ids.drop (ids.length - count)).reverse := by
    simp only [select_ids]
    by_cases h : ids.length > count
    · rw [if_pos h]
      simp only [pySliceFrom, pySliceIdx]
      rw [if_pos (by omega : -((count : Nat) : Int) < 0)]
      have ht : (-((count : Nat) : Int) + (ids.length : Nat)).toNat
          = ids.length - count := by omega
      rw [ht]
    · rw [if_neg h]
      have h0 : ids.length - count = 0 := by omega
      rw [h0, List.drop_zero]
  refine ⟨hmain, ?_⟩
  rw [hmain, List.length_reverse, List.length_drop]
  omega

/-- Witness for the amended C7 at five identifiers and count 3. -/
theorem c7_select_recent_witness :
    select_ids [(1 : Nat), 2, 3, 4, 5] 3 = [5, 4, 3] ∧
    (select_ids [(1 : Nat), 2, 3, 4, 5] 3).length = min 3 5 := by
  have h := c7_select_recent [(1 : Nat), 2, 3, 4, 5] 3 (by omega)
  exact ⟨h.1.trans (by decide), h.2.trans (by decide)⟩

/-- C8: the per-message loop of `fetch_emails` yields one record per raw
message (a parse failure is recovered locally, the message still appears),
and when the date header fails to parse the record's date falls back to
the first 20 characters of the raw header, or to "Unknown" when the
header is absent or empty. -/
theorem c8_date_fallback (decode : List Char → List Char)
    (parse_date : List Char → Option (List Char))
    (msgs : List (List Char × ImapRawMsg)) :
    (fetch_emails_records decode parse_date msgs).length = msgs.length ∧
    ∀ email_id m, parse_date (m.date_hdr.getD []) = none →
      (build_imap_record decode parse_date email_id m).date
        = (if (m.date_hdr.getD []).isEmpty then "Unknown".toList
           else (m.date_hdr.getD []).take 20) := by
  constructor
  · simp [fetch_emails_records]
  · intro email_id m h
    simp [build_imap_record, h]

/-- A concrete 3-message batch in which message 2 has an unparseable date
header and message 3 has no date header at all. -/
def c8_batch : List (List Char × ImapRawMsg) :=
  [("1".toList, ⟨some "A".toList, some "a@x.com".toList,
      some "Mon, 1 Jan 2024 10:00:00 +0000".toList, "b1".toList⟩),
   ("2".toList, ⟨some "B".toList, some "b@x.com".toList,
      some "not a real date header!!".toList, "b2".toList⟩),
   ("3".toList, ⟨some "C".toList, some "c@x.com".toList, none, "b3".toList⟩)]

/-- Witness for C8: with a parser failing on every input, the 3-message
batch yields 3 records, and the unparseable 24-character header falls back
to its first 20 characters. -/
theorem c8_date_fallback_witness :
    (fetch_emails_records (fun s => s) (fun _ => none) c8_batch).length
      = c8_batch.length ∧
    (build_imap_record (fun s => s) (fun _ => none) "2".toList
        ⟨some "B".toList, some "b@x.com".toList,
          some "not a real date header!!".toList, "b2".toList⟩).date
      = "not a real date head".toList := by
  have h := c8_date_fallback (fun s => s) (fun _ => none) c8_batch
  exact ⟨h.1, (h.2 "2".toList _ rfl).trans (by decide)⟩

/-- C9: `fetch_emails_oauth` extracts Subject/From/Date by case-insensitive
first-match with defaults "No Subject"/"Unknown"/"Unknown", uses the
snippet truncated to 500 characters plus ellipsis as the body, and takes
the first 25 characters of the raw date header with no date parsing. -/
theorem c9_oauth_extraction (m : GmailApiMsg) :
    (find_header m.headers "subject".toList = none →
      (build_oauth_record m).subject = "No Subject".toList) ∧
    (∀ v, find_header m.headers "subject".toList = some v →
      (build_oauth_record m).subject = v) ∧
    (find_header m.headers "from".toList = none →
      (build_oauth_record m).from_addr = "Unknown".toList) ∧
    (∀ v, find_header m.headers "from".toList = some v →
      (build_oauth_record m).from_addr = v) ∧
    (build_oauth_record m).date
      = ((find_header m.headers "date".toList).getD "Unknown".toList).take 25 ∧
    (m.snippet.length ≤ 500 → (build_oauth_record m).body = m.snippet) ∧
    (500 < m.snippet.length →
      (build_oauth_record m).body = m.snippet.take 500 ++ "...".toList) := by
  refine ⟨?_, ?_, ?_, ?_, ?_, ?_, ?_⟩
  · intro h
    simp only [build_oauth_record]
    rw [h]
    rfl
  · intro v h
    simp only [build_oauth_record]
    rw [h]
    rfl
  · intro h
    simp only [build_oauth_record]
    rw [h]
    rfl
  · intro v h
    simp only [build_oauth_record]
    rw [h]
    rfl
  · simp only [build_oauth_record]
    by_cases h :
        ((find_header m.headers "date".toList).getD "Unknown".toList).length > 25
    · rw [if_pos h]
    · rw [if_neg h]
      exact (List.take_of_length_le (by omega)).symm
  · intro h
    simp only [build_oauth_record]
    rw [if_neg (by omega : ¬ m.snippet.length > 500)]
  · intro h
    simp only [build_oauth_record]
    rw [if_pos h]

/-- A concrete Gmail API message: mixed-case subject header present, no
From header, a 31-character date header, a short snippet. -/
def c9_msg : GmailApiMsg :=
  { id := "m1".toList
    headers := [⟨"SuBJect".toList, "Hello".toList⟩,
                ⟨"Date".toList, "Mon, 01 Jan 2024 10:00:00 +0000".toList⟩]
    snippet := "short snippet".toList }

/-- Witness for C9 at `c9_msg`. -/
theorem c9_oauth_extraction_witness :
    (build_oauth_record c9_msg).subject = "Hello".toList ∧
    (build_oauth_record c9_msg).from_addr = "Unknown".toList ∧
    (build_oauth_record c9_msg).date = "Mon, 01 Jan 2024 10:00:00".toList ∧
    (build_oauth_record c9_msg).body = "short snippet".toList := by
  have h := c9_oauth_extraction c9_msg
  exact ⟨h.2.1 "Hello".toList (by decide),
         h.2.2.1 (by decide),
         h.2.2.2.2.1.trans (by decide),
         h.2.2.2.2.2.1 (by decide)⟩

/-- C10: calling the selection of `fetch_emails` with count 0 returns the
entire mailbox reversed to newest-first (because `ids[-0:]` is the whole
list), so for a non-empty mailbox the batch length differs from
`min(0, total)`. -/
theorem c10_count_zero_whole_mailbox {α : Type} (ids : List α) :
    select_ids ids 0 = ids.reverse ∧
    (0 < ids.length → (select_ids ids 0).length ≠ min 0 ids.length) := by
  have h0 : select_ids ids 0 = ids.reverse := by
    simp only [select_ids]
    by_cases h : ids.length > 0
    · rw [if_pos h]
      simp [pySliceFrom, pySliceIdx]
    · rw [if_neg h]
  refine ⟨h0, fun hpos => ?_⟩
  rw [h0, List.length_reverse]
  omega

/-- Witness for C10 at the two-message mailbox `[1, 2]`. -/
theorem c10_count_zero_whole_mailbox_witness :
    select_ids [(1 : Nat), 2] 0 = [2, 1] ∧
    (select_ids [(1 : Nat), 2] 0).length ≠ min 0 2 := by
  have h := c10_count_zero_whole_mailbox [(1 : Nat), 2]
  exact ⟨h.1.trans (by decide), h.2 (by decide)⟩
